import Mathlib

/-!
Verification of the Siemens diffusion-vector file tools of
FreeDiffusionToolkit (`src/freediffusiontoolkit/siemens_tools.py`, with its
near-duplicate `src/freediffusiontoolkit/simens_tool.py`).

The embedding follows `siemens_tools.py` line by line:

* `BasicSiemensTool.construct_header` becomes `construct_header`. The
  per-instance `self.options` dict is modelled by the `Options` structure
  (one optional field per key the code reads); `datetime.now()` is
  nondeterministic, so the already-formatted time string is an explicit
  argument.
* `BasicSiemensTool.vector_to_string` becomes `vector_to_string`, over
  rational components.  Python's format spec `f"{x: .{d}f}"` (space sign
  flag, fixed point, `d` fractional digits) is modelled by `pyFixed`.
* `BasicSiemensTool.write` becomes `write`, returning the full text written
  to the file (or the error the vector formatting raises).
* `LegacySiemensTool.__init__`'s option mutation becomes `legacyInit`, and
  the header rewrite loop of `LegacySiemensTool.save` becomes
  `legacyStripDirections` (built on `pyReplaceStr`, Python's `str.replace`).
-/

namespace FreeDiffusionToolkit

/-- Python exceptions the embedded fragments can raise. -/
inductive PyError where
  /-- Raised by `vector[i]` when the sequence is too short. -/
  | indexError : PyError
  /-- Raised when a name is not in scope (see `simens_tool_construct_header`). -/
  | nameError : PyError
deriving DecidableEq

/-! ## Decimal rendering (Python `str` of `int`) -/

/-- Decimal digits of `n`, least significant first, with explicit fuel so the
recursion is structural (fuel at least `1` and covering the digit count is
enough; `natStr` passes `n + 1`). -/
def natDigitsAux (fuel n : ℕ) : List Char :=
  match fuel with
  | 0 => []
  | fuel + 1 =>
    if n < 10 then [Nat.digitChar n]
    else Nat.digitChar (n % 10) :: natDigitsAux fuel (n / 10)

/-- Python's `str` of a non-negative integer: its decimal digits. -/
def natStr (n : ℕ) : String := ⟨(natDigitsAux (n + 1) n).reverse⟩

/-- Python's `str` of an integer: a `-` sign followed by the decimal digits
of the absolute value, or just the digits when non-negative. -/
def intStr (n : ℤ) : String :=
  if n < 0 then "-" ++ natStr n.natAbs else natStr n.natAbs

/-- Python's `repr` of a list of integers, as interpolated by an f-string:
`[a, b, c]`. -/
def pyListRepr (l : List ℤ) : String :=
  "[" ++ String.intercalate ", " (l.map intStr) ++ "]"

/-! ## Fixed-point formatting (`f"{x: .{d}f}"`) -/

/-- Round to the nearest integer, ties to even: the rounding Python's
fixed-point formatting applies to the value being rendered. -/
def roundHalfEven (x : ℚ) : ℤ :=
  if x - ⌊x⌋ < 1 / 2 then ⌊x⌋
  else if 1 / 2 < x - ⌊x⌋ then ⌊x⌋ + 1
  else if 2 ∣ ⌊x⌋ then ⌊x⌋ else ⌊x⌋ + 1

/-- Left-pad a digit string with `'0'` to width `d` (the fixed fractional
field of Python's `%.{d}f`). -/
def zfill (d : ℕ) (s : String) : String :=
  ⟨List.replicate (d - s.length) '0' ++ s.data⟩

/-- The magnitude part of Python's fixed-point rendering: the rounded value
`m` scaled by `10 ^ d`, shown as integer part, point, and exactly `d`
fractional digits (no point when `d = 0`, as in Python's `%.0f`). -/
def fixedDigits (m d : ℕ) : String :=
  if d = 0 then natStr m
  else natStr (m / 10 ^ d) ++ "." ++ zfill d (natStr (m % 10 ^ d))

/-- Python's `f"{q: .{d}f}"`: the space sign flag puts `' '` before a
non-negative value and `'-'` before a negative one, then the magnitude is
rendered with `d` fractional digits after rounding `|q| * 10 ^ d` to the
nearest integer (ties to even). -/
def pyFixed (q : ℚ) (d : ℕ) : String :=
  (if q < 0 then "-" else " ") ++
    fixedDigits (roundHalfEven (|q| * (10 : ℚ) ^ d)).toNat d

/-! ## `BasicSiemensTool.vector_to_string` -/

/-- `BasicSiemensTool.vector_to_string` (`siemens_tools.py:126-136`, identical
text in `simens_tool.py:115-125`): builds
`f"Vector[{index}] = ({v[0]: .{d}f},{v[1]: .{d}f},{v[2]: .{d}f})"`.
The subscripts `vector[0]`, `vector[1]`, `vector[2]` raise `IndexError` when
the vector has fewer than three components; further components are never
read. -/
def vector_to_string (index : ℤ) (vector : List ℚ) (decimals : ℕ := 6) :
    Except PyError String :=
  match vector with
  | v0 :: v1 :: v2 :: _ =>
    .ok ("Vector[" ++ intStr index ++ "] = (" ++
      pyFixed v0 decimals ++ "," ++ pyFixed v1 decimals ++ "," ++
      pyFixed v2 decimals ++ ")")
  | _ => .error .indexError

/-! ## Options and paths -/

/-- The keys `BasicSiemensTool`/`LegacySiemensTool` read from the untyped
`self.options` dict, one optional field per key (`options.get(k, default)`
becomes `getD`). -/
structure Options where
  default_path : Option String := none
  description : Option String := none
  Comment : Option String := none
  CoordinateSystem : Option String := none
  Normalisation : Option String := none
  newline : Option String := none

/-- Split a character list at every `'/'` (the segments `pathlib` parses a
POSIX path into). -/
def splitSlash : List Char → List (List Char)
  | [] => [[]]
  | c :: rest =>
    match splitSlash rest with
    | [] => [[]]
    | g :: gs => if c = '/' then [] :: g :: gs else (c :: g) :: gs

/-- `pathlib.Path(s).name`: the final path component; empty segments and
`"."` segments are dropped when the path is parsed, and `""`, `"."` or a
root have no name. -/
def pathName (s : String) : String :=
  ⟨((((splitSlash s.data).filter
      (fun p => !p.isEmpty && p != ['.'])).getLast?).getD [])⟩

/-- The default directory of `BasicSiemensTool.construct_header`
(`siemens_tools.py:48-50`).  The Python source is the RAW string
`r"C:\\Medcom\\MriCustomer\\seq\\DiffusionVectorSets\\"`, so each `\\` is
two literal backslash characters. -/
def defaultPathCurrent : String :=
  "C:\\\\Medcom\\\\MriCustomer\\\\seq\\\\DiffusionVectorSets\\\\"

/-- The default directory `LegacySiemensTool.__init__` installs
(`siemens_tools.py:143`): the raw string `r"C:\\Medcom\\MriCustomer\\seq\\"`,
again with doubled backslashes. -/
def defaultPathLegacy : String :=
  "C:\\\\Medcom\\\\MriCustomer\\\\seq\\\\"

/-- The 77-character separator line appended at `siemens_tools.py:38-40` and
`siemens_tools.py:67-69`. -/
def sepLine : String :=
  "# -----------------------------------------------------------------------------"

/-! ## `BasicSiemensTool.construct_header` -/

/-- `siemens_tools.py:42-47`: a `None` filename falls back to
`"MyVectorSet.dvs"`; any other value (the empty string included) is reduced
to its final path component and used as-is. -/
def filenameOrDefault : Option String → String
  | some f => pathName f
  | none => "MyVectorSet.dvs"

/-- `siemens_tools.py:63-65`: the `Comment:` line is appended only when the
`Comment` option is set and truthy (a set but empty string is skipped). -/
def commentLines : Option String → List String
  | some c => if c = "" then [] else ["Comment: " ++ c]
  | none => []

/-- `BasicSiemensTool.construct_header` (`siemens_tools.py:18-78`).
Arguments: the instance's options dict, the `datetime.now()` timestamp
already formatted with `"%a %b %d %H:%M:%S %Y"`, the `filename` parameter
(`none` models Python's `None`; otherwise `Path(filename).name` is taken),
`n_dims` and `b_values` (modelled as a list of integers, as in the callers
and the documented examples; `f"b-values: {b_values}"` renders its list
repr).  The lines are appended in source order: separator, file, date,
description, b-values, number dimensions, the `Comment` line only when the
option is set and non-empty (Python truthiness), separator, the
`[directions=...]` marker holding `len(b_values) * n_dims`, coordinate
system, normalisation. -/
def construct_header (o : Options) (current_time : String)
    (filename : Option String) (n_dims : ℤ) (b_values : List ℤ) :
    List String :=
  [sepLine,
   "# File: " ++ o.default_path.getD defaultPathCurrent ++ filenameOrDefault filename,
   "# Date: " ++ current_time,
   "# Description: " ++
     o.description.getD "Vector file for Siemens 'free' diffusion mode.",
   "b-values: " ++ pyListRepr b_values,
   "number dimensions: " ++ intStr n_dims]
  ++ commentLines o.Comment
  ++ [sepLine,
      "[directions=" ++ intStr ((b_values.length : ℤ) * n_dims) ++ "]",
      "CoordinateSystem = " ++ o.CoordinateSystem.getD "xyz",
      "Normalisation = " ++ o.Normalisation.getD "none"]

/-- `simens_tool.py`'s `BasicSiemensTool.construct_header`
(`simens_tool.py:18-67`): the module imports only `Path` and `numpy`, never
`datetime`, so `now = datetime.now()` at `simens_tool.py:41` raises
`NameError` on every call, before the b-values, `[directions=...]` or any
later line could be appended.  The function therefore never returns a
header. -/
def simens_tool_construct_header : Except PyError (List String) :=
  .error .nameError

/-! ## Writing (`BasicSiemensTool.write`, `LegacySiemensTool`) -/

/-- `BasicSiemensTool.write` (`siemens_tools.py:111-124`): every header line
and every formatted vector line is written followed by
`self.options.get("newline", "\n")`.  The result is the full text written to
the file; a too-short vector surfaces the `IndexError` of
`vector_to_string`.  `decimals` is left at its default `6`, as in the
source's call `self.vector_to_string(row_idx, row)`. -/
def write (o : Options) (header : List String)
    (diffusion_vectors : List (List ℚ)) : Except PyError String := do
  let rows ← diffusion_vectors.enum.mapM
    (fun p => vector_to_string (p.1 : ℤ) p.2 6)
  return String.join (header.map (fun l => l ++ o.newline.getD "\n")) ++
    String.join (rows.map (fun l => l ++ o.newline.getD "\n"))

/-- `LegacySiemensTool.__init__` (`siemens_tools.py:139-143`): after the
parent constructor, `options["newline"] = "\r\n"` and
`options["default_path"] = r"C:\\Medcom\\MriCustomer\\seq\\"`. -/
def legacyInit (o : Options) : Options :=
  { o with newline := some "\r\n", default_path := some defaultPathLegacy }

/-- `str.replace old new` on character lists for a non-empty `old` (the only
way the repository calls it): scan left to right, replacing each
non-overlapping occurrence of `old` by `new`.  The fuel is the length of the
string; every step consumes at least one character, so `s.length` fuel is
exact. -/
def pyReplaceAux (fuel : ℕ) (s old new : List Char) : List Char :=
  match fuel, s with
  | 0, s => s
  | _ + 1, [] => []
  | f + 1, c :: rest =>
    if old ≠ [] ∧ old.isPrefixOf (c :: rest) then
      new ++ pyReplaceAux f ((c :: rest).drop old.length) old new
    else
      c :: pyReplaceAux f rest old new

/-- `s.replace(old, new)` for non-empty `old`. -/
def pyReplaceStr (s old new : String) : String :=
  ⟨pyReplaceAux s.data.length s.data old.data new.data⟩

/-- `s.startswith(pre)`. -/
def pyStartsWith (s pre : String) : Bool :=
  pre.data.isPrefixOf s.data

/-- The header rewrite loop of `LegacySiemensTool.save`
(`siemens_tools.py:170-172`): every line that starts with `"[directions="`
is replaced by itself with `"[directions="` removed. -/
def legacyStripDirections (header : List String) : List String :=
  header.map (fun h =>
    if pyStartsWith h "[directions=" then pyReplaceStr h "[directions=" ""
    else h)

/-! ## String and digit lemmas -/

/-- The first character of `s ++ t` is the first character of a non-empty
`s`. -/
theorem head?_append_some (c : Char) (s t : String) (h : s.data.head? = some c) :
    (s ++ t).data.head? = some c := by
  rw [String.data_append]
  cases hd : s.data with
  | nil => rw [hd] at h; cases h
  | cons a as => rw [hd] at h; rw [List.cons_append]; simpa using h

theorem isPrefixOf_append_self (l t : List Char) : l.isPrefixOf (l ++ t) = true := by
  induction l with
  | nil => simp [List.isPrefixOf]
  | cons a as ih =>
    rw [List.cons_append]
    show (a == a && as.isPrefixOf (as ++ t)) = true
    simp [ih]

/-- A string whose first character is not `'['` does not start with
`"[directions="`. -/
theorem pyStartsWith_directions_false (s : String) (c : Char)
    (h : s.data.head? = some c) (hc : c ≠ '[') :
    pyStartsWith s "[directions=" = false := by
  unfold pyStartsWith
  cases hd : s.data with
  | nil => rw [hd] at h; cases h
  | cons a as =>
    rw [hd] at h
    have ha : a = c := by simpa using h
    subst ha
    show (('[' :: "directions=".data).isPrefixOf (a :: as)) = false
    show ('[' == a && "directions=".data.isPrefixOf as) = false
    simp
    intro h'
    exact absurd h'.symm hc

theorem pyStartsWith_self_append (p t : String) : pyStartsWith (p ++ t) p = true := by
  unfold pyStartsWith
  rw [String.data_append]
  exact isPrefixOf_append_self _ _

/-- Every character `natDigitsAux` emits is a decimal digit. -/
theorem natDigitsAux_isDigit (fuel : ℕ) :
    ∀ (n : ℕ), ∀ c ∈ natDigitsAux fuel n, c.isDigit = true := by
  induction fuel with
  | zero => intro n c hc; simp [natDigitsAux] at hc
  | succ f ih =>
    intro n c hc
    rw [natDigitsAux] at hc
    split at hc
    · next hlt =>
      simp at hc
      subst hc
      interval_cases n <;> decide
    · rcases List.mem_cons.1 hc with h | h
      · subst h
        have : n % 10 < 10 := Nat.mod_lt _ (by norm_num)
        interval_cases h : (n % 10) <;> decide
      · exact ih _ c h

theorem mem_natStr_isDigit {c : Char} {n : ℕ} (h : c ∈ (natStr n).data) :
    c.isDigit = true := by
  have h' : c ∈ natDigitsAux (n + 1) n := by
    simpa [natStr] using h
  exact natDigitsAux_isDigit _ _ _ h'

theorem mem_intStr_data {c : Char} {n : ℤ} (h : c ∈ (intStr n).data) :
    c = '-' ∨ c.isDigit = true := by
  unfold intStr at h
  split at h
  · rw [String.data_append] at h
    rcases List.mem_append.1 h with h | h
    · left; simpa using h
    · right; exact mem_natStr_isDigit h
  · right; exact mem_natStr_isDigit h

/-- The stripped legacy marker `<N>]` contains no `'['`. -/
theorem not_bracket_mem_marker (N : ℤ) : '[' ∉ (intStr N ++ "]").data := by
  rw [String.data_append]
  intro hm
  rcases List.mem_append.1 hm with h | h
  · rcases mem_intStr_data h with h | h
    · cases h
    · cases h
  · simp at h

/-- With enough width allowed, `natDigitsAux` emits at most `k` digits for a
number below `10 ^ k`. -/
theorem natDigitsAux_length_le (fuel : ℕ) :
    ∀ (n k : ℕ), 1 ≤ k → n < 10 ^ k → (natDigitsAux fuel n).length ≤ k := by
  induction fuel with
  | zero => intro n k _ _; simp [natDigitsAux]
  | succ f ih =>
    intro n k hk h
    rw [natDigitsAux]
    split
    · simpa using hk
    · next hge =>
      have h10 : 10 ≤ n := by omega
      have hk2 : 2 ≤ k := by
        by_contra hlt
        have : k = 1 := by omega
        subst this
        simp at h
        omega
      have hdiv : n / 10 < 10 ^ (k - 1) := by
        rw [Nat.div_lt_iff_lt_mul (by norm_num)]
        calc n < 10 ^ k := h
        _ = 10 ^ (k - 1) * 10 := by
              rw [← pow_succ]
              congr 1
              omega
      have := ih (n / 10) (k - 1) (by omega) hdiv
      simp only [List.length_cons]
      omega

theorem natStr_length_le {n k : ℕ} (hk : 1 ≤ k) (h : n < 10 ^ k) :
    (natStr n).length ≤ k := by
  show (natDigitsAux (n + 1) n).reverse.length ≤ k
  rw [List.length_reverse]
  exact natDigitsAux_length_le _ _ _ hk h

theorem zfill_length {d : ℕ} {s : String} (h : s.length ≤ d) :
    (zfill d s).length = d := by
  show (List.replicate (d - s.length) '0' ++ s.data).length = d
  rw [List.length_append, List.length_replicate]
  have : s.data.length = s.length := rfl
  omega

theorem mem_zfill_isDigit {c : Char} {d : ℕ} {s : String}
    (hc : c ∈ (zfill d s).data) (hs : ∀ x ∈ s.data, x.isDigit = true) :
    c.isDigit = true := by
  rcases List.mem_append.1 hc with h | h
  · rw [List.eq_of_mem_replicate h]; decide
  · exact hs c h

/-! ## `str.replace` lemmas -/

/-- When the first character of `old` never occurs in `s`, `replace` leaves
`s` unchanged (whatever the fuel: exhausted fuel also returns the rest
unchanged). -/
theorem pyReplaceAux_no_occ (fuel : ℕ) :
    ∀ (s : List Char) (oc : Char) (old' : List Char), oc ∉ s →
      pyReplaceAux fuel s (oc :: old') [] = s := by
  induction fuel with
  | zero => intro s oc old' _; rfl
  | succ f ih =>
    intro s oc old' h
    cases s with
    | nil => rfl
    | cons c rest =>
      show (if (oc :: old') ≠ [] ∧ (oc :: old').isPrefixOf (c :: rest) then
          [] ++ pyReplaceAux f ((c :: rest).drop (oc :: old').length) (oc :: old') []
        else c :: pyReplaceAux f rest (oc :: old') []) = c :: rest
      rw [if_neg]
      · exact congrArg (c :: ·) (ih rest oc old' (fun hm => h (List.mem_cons_of_mem _ hm)))
      · rintro ⟨-, hp⟩
        have : (oc == c && old'.isPrefixOf rest) = true := hp
        have hoc : oc = c := by
          rcases Bool.and_eq_true_iff.1 this with ⟨h1, -⟩
          exact beq_iff_eq.1 h1
        exact h (hoc ▸ List.mem_cons_self _ _)

/-- Stripping the `"[directions="` prefix: when the remainder holds no `'['`,
`replace` removes exactly the leading occurrence. -/
theorem pyReplaceStr_strip (tail : String) (h : '[' ∉ tail.data) :
    pyReplaceStr ("[directions=" ++ tail) "[directions=" "" = tail := by
  have key : pyReplaceAux (("[directions=" ++ tail).data.length)
      (("[directions=" ++ tail).data) "[directions=".data "".data = tail.data := by
    rw [String.data_append]
    have hlen : ("[directions=".data ++ tail.data).length = (11 + tail.data.length) + 1 := by
      rw [List.length_append]
      show 12 + tail.data.length = (11 + tail.data.length) + 1
      omega
    rw [hlen]
    have hcons : "[directions=".data ++ tail.data =
        '[' :: ("directions=".data ++ tail.data) := rfl
    rw [hcons]
    show (if ("[directions=".data ≠ [] ∧
          "[directions=".data.isPrefixOf ('[' :: ("directions=".data ++ tail.data))) then
        "".data ++ pyReplaceAux (11 + tail.data.length)
          (('[' :: ("directions=".data ++ tail.data)).drop "[directions=".data.length)
          "[directions=".data "".data
      else '[' :: pyReplaceAux (11 + tail.data.length) ("directions=".data ++ tail.data)
        "[directions=".data "".data) = tail.data
    rw [if_pos ⟨by decide, by rw [← hcons]; exact isPrefixOf_append_self _ _⟩]
    rw [List.nil_append, ← hcons]
    have hdrop : ("[directions=".data ++ tail.data).drop "[directions=".data.length =
        tail.data := List.drop_left _ _
    rw [hdrop]
    exact pyReplaceAux_no_occ _ _ _ _ h
  show String.mk _ = tail
  rw [key]

/-! ## Fixed-point evaluation lemmas -/

theorem roundHalfEven_intCast (m : ℤ) : roundHalfEven ((m : ℚ)) = m := by
  unfold roundHalfEven
  rw [Int.floor_intCast, sub_self]
  norm_num

/-- Evaluate `pyFixed` once the scaled magnitude is a known natural
number. -/
theorem pyFixed_of_abs_mul (q : ℚ) (d m : ℕ) (h : |q| * (10 : ℚ) ^ d = (m : ℚ)) :
    pyFixed q d = (if q < 0 then "-" else " ") ++ fixedDigits m d := by
  unfold pyFixed
  rw [h]
  rw [show ((m : ℕ) : ℚ) = (((m : ℕ) : ℤ) : ℚ) by push_cast; ring]
  rw [roundHalfEven_intCast]
  simp

theorem pyFixed_zero_six : pyFixed 0 6 = " 0.000000" := by
  rw [pyFixed_of_abs_mul 0 6 0 (by norm_num)]
  rw [if_neg (by norm_num : ¬ (0 : ℚ) < 0)]
  decide

theorem pyFixed_pos_57735 : pyFixed (57735 / 100000) 6 = " 0.577350" := by
  rw [pyFixed_of_abs_mul (57735 / 100000) 6 577350
    (by rw [abs_of_pos (by norm_num)]; norm_num)]
  rw [if_neg (by norm_num : ¬ (57735 / 100000 : ℚ) < 0)]
  decide

theorem pyFixed_neg_57735 : pyFixed (-57735 / 100000) 6 = "-0.577350" := by
  rw [pyFixed_of_abs_mul (-57735 / 100000) 6 577350
    (by rw [abs_of_neg (by norm_num)]; norm_num)]
  rw [if_pos (by norm_num : (-57735 / 100000 : ℚ) < 0)]
  decide

/-- A line starting with a literal whose first character is not `'['` does
not start with `"[directions="`. -/
theorem pyStartsWith_append_false (pre x : String) (c : Char)
    (h : pre.data.head? = some c) (hc : c ≠ '[') :
    pyStartsWith (pre ++ x) "[directions=" = false :=
  pyStartsWith_directions_false _ c (head?_append_some c pre x h) hc

/-- No optional `Comment:` line starts with `"[directions="`. -/
theorem commentLines_filter (oc : Option String) :
    (commentLines oc).filter (fun l => pyStartsWith l "[directions=") = [] := by
  rcases oc with _ | c
  · rfl
  · simp only [commentLines]
    by_cases hc : c = ""
    · rw [if_pos hc]
      rfl
    · rw [if_neg hc]
      rw [List.filter_cons]
      rw [pyStartsWith_append_false "Comment: " c 'C' rfl (by decide)]
      rfl

/-- Mapping the legacy strip over the optional `Comment:` line changes
nothing. -/
theorem commentLines_strip (oc : Option String) :
    (commentLines oc).map (fun h =>
      if pyStartsWith h "[directions=" then pyReplaceStr h "[directions=" ""
      else h) = commentLines oc := by
  rcases oc with _ | c
  · rfl
  · simp only [commentLines]
    by_cases hc : c = ""
    · rw [if_pos hc]
      rfl
    · rw [if_neg hc]
      rw [List.map_cons, List.map_nil]
      rw [if_neg (by
        rw [pyStartsWith_append_false "Comment: " c 'C' rfl (by decide)]
        exact Bool.false_ne_true)]

/-- String append is associative (needed to re-bracket the marker line). -/
theorem string_append_assoc (a b c : String) : a ++ b ++ c = a ++ (b ++ c) := by
  obtain ⟨la⟩ := a
  obtain ⟨lb⟩ := b
  obtain ⟨lc⟩ := c
  exact congrArg String.mk (List.append_assoc la lb lc)

/-! ## Claim theorems -/

/-- C1: for non-empty `b_values` and positive `n_dims`, exactly one line of
`construct_header` starts with `"[directions="`, and it states the
direction count `len(b_values) * n_dims`. -/
theorem construct_header_directions_count (o : Options) (t : String)
    (f : Option String) (n : ℤ) (bvs : List ℤ)
    (h1 : bvs ≠ []) (h2 : 0 < n) :
    (construct_header o t f n bvs).filter
      (fun l => pyStartsWith l "[directions=") =
      ["[directions=" ++ intStr ((bvs.length : ℤ) * n) ++ "]"] := by
  have hsep : pyStartsWith sepLine "[directions=" = false := by decide
  have hmark : pyStartsWith
      ("[directions=" ++ intStr ((bvs.length : ℤ) * n) ++ "]")
      "[directions=" = true := pyStartsWith_self_append _ _
  have hfile := pyStartsWith_append_false
    ("# File: " ++ o.default_path.getD defaultPathCurrent) (filenameOrDefault f) '#'
    (head?_append_some '#' "# File: " _ rfl) (by decide)
  have hdate := pyStartsWith_append_false "# Date: " t '#' rfl (by decide)
  have hdesc := pyStartsWith_append_false "# Description: "
    (o.description.getD "Vector file for Siemens 'free' diffusion mode.") '#' rfl (by decide)
  have hbv := pyStartsWith_append_false "b-values: " (pyListRepr bvs) 'b' rfl (by decide)
  have hnd := pyStartsWith_append_false "number dimensions: " (intStr n) 'n' rfl (by decide)
  have hcoord := pyStartsWith_append_false "CoordinateSystem = "
    (o.CoordinateSystem.getD "xyz") 'C' rfl (by decide)
  have hnorm := pyStartsWith_append_false "Normalisation = "
    (o.Normalisation.getD "none") 'N' rfl (by decide)
  unfold construct_header
  rw [List.filter_append, List.filter_append, commentLines_filter]
  simp only [List.filter_cons, List.filter_nil, hsep, hmark, hfile, hdate,
    hdesc, hbv, hnd, hcoord, hnorm]
  simp

/-- Witness for C1 at defaults: b-values `[0, 1000]`, three dimensions. -/
theorem construct_header_directions_count_witness :
    (construct_header {} "Wed Jan 15 14:32:07 2025" none 3 [0, 1000]).filter
      (fun l => pyStartsWith l "[directions=") =
      ["[directions=" ++ intStr ((([0, 1000] : List ℤ).length : ℤ) * 3) ++ "]"] :=
  construct_header_directions_count {} "Wed Jan 15 14:32:07 2025" none 3 [0, 1000]
    (by decide) (by decide)

/-- C2: `vector_to_string index vector decimals` returns
`Vector[<index>] = ( s0, s1, s2)` where each component is rendered in fixed
point with exactly `decimals` fractional digits and a sign-position
character that is a space for non-negative values and `-` for negative
values; in particular `vector_to_string 0 [0,0,0]` gives
`"Vector[0] = ( 0.000000, 0.000000, 0.000000)"` and
`vector_to_string 1 [-0.57735, 0.57735, 0.57735] 6` gives
`"Vector[1] = (-0.577350, 0.577350, 0.577350)"`. -/
theorem vector_to_string_format :
    vector_to_string 0 [0, 0, 0] 6 =
      .ok "Vector[0] = ( 0.000000, 0.000000, 0.000000)" ∧
    vector_to_string 1 [-57735 / 100000, 57735 / 100000, 57735 / 100000] 6 =
      .ok "Vector[1] = (-0.577350, 0.577350, 0.577350)" ∧
    (∀ (i : ℤ) (v0 v1 v2 : ℚ) (rest : List ℚ) (d : ℕ),
      vector_to_string i (v0 :: v1 :: v2 :: rest) d =
        .ok ("Vector[" ++ intStr i ++ "] = (" ++ pyFixed v0 d ++ "," ++
          pyFixed v1 d ++ "," ++ pyFixed v2 d ++ ")")) ∧
    (∀ (q : ℚ) (d : ℕ),
      (pyFixed q d).data.head? = some (if q < 0 then '-' else ' ')) ∧
    (∀ (q : ℚ) (d : ℕ), ∃ (ip : ℕ) (f : String),
      pyFixed q (d + 1) = (if q < 0 then "-" else " ") ++
        (natStr ip ++ "." ++ f) ∧
      f.length = d + 1 ∧ ∀ c ∈ f.data, c.isDigit = true) := by
  refine ⟨?_, ?_, ?_, ?_, ?_⟩
  · show Except.ok ("Vector[" ++ intStr 0 ++ "] = (" ++ pyFixed 0 6 ++ "," ++
      pyFixed 0 6 ++ "," ++ pyFixed 0 6 ++ ")") = _
    rw [pyFixed_zero_six]
    exact congrArg Except.ok (by decide)
  · show Except.ok ("Vector[" ++ intStr 1 ++ "] = (" ++
      pyFixed (-57735 / 100000) 6 ++ "," ++ pyFixed (57735 / 100000) 6 ++ "," ++
      pyFixed (57735 / 100000) 6 ++ ")") = _
    rw [pyFixed_neg_57735, pyFixed_pos_57735]
    exact congrArg Except.ok (by decide)
  · intro i v0 v1 v2 rest d
    rfl
  · intro q d
    by_cases hq : q < 0
    · rw [if_pos hq]
      show ((if q < 0 then "-" else " ") ++ _).data.head? = _
      rw [if_pos hq]
      exact head?_append_some '-' _ _ rfl
    · rw [if_neg hq]
      show ((if q < 0 then "-" else " ") ++ _).data.head? = _
      rw [if_neg hq]
      exact head?_append_some ' ' _ _ rfl
  · intro q d
    refine ⟨(roundHalfEven (|q| * (10 : ℚ) ^ (d + 1))).toNat / 10 ^ (d + 1),
      zfill (d + 1)
        (natStr ((roundHalfEven (|q| * (10 : ℚ) ^ (d + 1))).toNat % 10 ^ (d + 1))),
      ?_, ?_, ?_⟩
    · show (if q < 0 then "-" else " ") ++
        fixedDigits ((roundHalfEven (|q| * (10 : ℚ) ^ (d + 1))).toNat) (d + 1) = _
      unfold fixedDigits
      rw [if_neg (Nat.succ_ne_zero d)]
    · exact zfill_length (natStr_length_le (by omega)
        (Nat.mod_lt _ (Nat.pow_pos (by norm_num))))
    · intro c hc
      exact mem_zfill_isDigit hc (fun x hx => mem_natStr_isDigit hx)

/-- C8: calling `vector_to_string` with a vector of fewer than 3 components
fails with the `IndexError` of the `vector[2]` (or earlier) subscript
instead of returning a string. -/
theorem vector_to_string_short (index : ℤ) (vector : List ℚ) (decimals : ℕ)
    (h : vector.length < 3) :
    vector_to_string index vector decimals = .error .indexError := by
  rcases vector with _ | ⟨a, _ | ⟨b, _ | ⟨c, rest⟩⟩⟩
  · rfl
  · rfl
  · rfl
  · exfalso
    simp [List.length_cons] at h
    omega

/-- Witness for C8 at the concrete input `[]`. -/
theorem vector_to_string_short_witness :
    vector_to_string 0 [] 6 = .error .indexError :=
  vector_to_string_short 0 [] 6 (by decide)

/-- C10: `vector_to_string` depends only on the first three components of
its vector: two vectors of length at least 3 agreeing on components 0, 1, 2
give equal results (extra components are ignored, not rejected). -/
theorem vector_to_string_first_three (index : ℤ) (decimals : ℕ)
    (v w : List ℚ) (hv : 3 ≤ v.length) (hw : 3 ≤ w.length)
    (h : v.take 3 = w.take 3) :
    vector_to_string index v decimals = vector_to_string index w decimals := by
  rcases v with _ | ⟨a, _ | ⟨b, _ | ⟨c, rv⟩⟩⟩
  · simp at hv
  · simp at hv
  · simp at hv
  · rcases w with _ | ⟨x, _ | ⟨y, _ | ⟨z, rw'⟩⟩⟩
    · simp at hw
    · simp at hw
    · simp at hw
    · simp only [List.take, List.cons.injEq] at h
      obtain ⟨h1, h2, h3, -⟩ := h
      subst h1
      subst h2
      subst h3
      rfl

/-- Witness for C10: two concrete vectors differing only in the fourth
component format identically. -/
theorem vector_to_string_first_three_witness :
    vector_to_string 0 [1, 2, 3, 4] 6 = vector_to_string 0 [1, 2, 3, 5] 6 :=
  vector_to_string_first_three 0 6 [1, 2, 3, 4] [1, 2, 3, 5]
    (by decide) (by decide) rfl

/-- C3: in the legacy variant's saved header, the direction-marker line has
its `"[directions="` prefix stripped while the trailing `"]"` is retained:
for direction count `N` the line is literally `N]`, and it does not contain
the substring `"[directions="`. -/
theorem legacy_save_directions_marker (o : Options) (t : String)
    (f : Option String) (n : ℤ) (bvs : List ℤ) :
    ∃ pre post,
      construct_header o t f n bvs =
        pre ++ ("[directions=" ++ intStr ((bvs.length : ℤ) * n) ++ "]") :: post ∧
      legacyStripDirections (construct_header o t f n bvs) =
        pre ++ (intStr ((bvs.length : ℤ) * n) ++ "]") :: post ∧
      ¬ ("[directions=".data <:+:
          (intStr ((bvs.length : ℤ) * n) ++ "]").data) := by
  have hsep : pyStartsWith sepLine "[directions=" = false := by decide
  have hmark : pyStartsWith
      ("[directions=" ++ intStr ((bvs.length : ℤ) * n) ++ "]")
      "[directions=" = true := pyStartsWith_self_append _ _
  have hfile := pyStartsWith_append_false
    ("# File: " ++ o.default_path.getD defaultPathCurrent) (filenameOrDefault f) '#'
    (head?_append_some '#' "# File: " _ rfl) (by decide)
  have hdate := pyStartsWith_append_false "# Date: " t '#' rfl (by decide)
  have hdesc := pyStartsWith_append_false "# Description: "
    (o.description.getD "Vector file for Siemens 'free' diffusion mode.") '#' rfl (by decide)
  have hbv := pyStartsWith_append_false "b-values: " (pyListRepr bvs) 'b' rfl (by decide)
  have hnd := pyStartsWith_append_false "number dimensions: " (intStr n) 'n' rfl (by decide)
  have hcoord := pyStartsWith_append_false "CoordinateSystem = "
    (o.CoordinateSystem.getD "xyz") 'C' rfl (by decide)
  have hnorm := pyStartsWith_append_false "Normalisation = "
    (o.Normalisation.getD "none") 'N' rfl (by decide)
  have hstrip : pyReplaceStr
      ("[directions=" ++ intStr ((bvs.length : ℤ) * n) ++ "]")
      "[directions=" "" = intStr ((bvs.length : ℤ) * n) ++ "]" := by
    rw [string_append_assoc]
    exact pyReplaceStr_strip _ (not_bracket_mem_marker _)
  refine ⟨[sepLine,
      "# File: " ++ o.default_path.getD defaultPathCurrent ++ filenameOrDefault f,
      "# Date: " ++ t,
      "# Description: " ++
        o.description.getD "Vector file for Siemens 'free' diffusion mode.",
      "b-values: " ++ pyListRepr bvs,
      "number dimensions: " ++ intStr n] ++ commentLines o.Comment ++ [sepLine],
    ["CoordinateSystem = " ++ o.CoordinateSystem.getD "xyz",
     "Normalisation = " ++ o.Normalisation.getD "none"], ?_, ?_, ?_⟩
  · unfold construct_header
    simp [List.append_assoc]
  · unfold legacyStripDirections construct_header
    simp only [List.map_append, List.map_cons, List.map_nil, hsep, hmark,
      hfile, hdate, hdesc, hbv, hnd, hcoord, hnorm, commentLines_strip, hstrip]
    simp [List.append_assoc]
  · intro hinf
    exact not_bracket_mem_marker _ (hinf.subset (by decide))

/-- C9 counterexample: the legacy save path keeps the
`number dimensions: 3` line — it is not omitted from the legacy header. -/
theorem legacy_header_contains_number_dimensions :
    "number dimensions: 3" ∈ legacyStripDirections
      (construct_header (legacyInit {}) "Wed Jan 15 14:32:07 2025"
        (some "DiffusionVectors.txt") 3 [0, 1000]) := by decide

/-- C9 (amended): `construct_header` appends the
`number dimensions: <nDims>` line unconditionally, and the legacy save's
rewrite loop leaves it intact, so the line appears in both variants'
headers. -/
theorem number_dimensions_line_in_both_variants (o : Options) (t : String)
    (f : Option String) (n : ℤ) (bvs : List ℤ) :
    ("number dimensions: " ++ intStr n) ∈ construct_header o t f n bvs ∧
    ("number dimensions: " ++ intStr n) ∈
      legacyStripDirections (construct_header o t f n bvs) := by
  have hmem : ("number dimensions: " ++ intStr n) ∈ construct_header o t f n bvs := by
    unfold construct_header
    simp
  refine ⟨hmem, ?_⟩
  unfold legacyStripDirections
  refine List.mem_map.2 ⟨"number dimensions: " ++ intStr n, hmem, ?_⟩
  rw [if_neg (by
    rw [pyStartsWith_append_false "number dimensions: " (intStr n) 'n' rfl (by decide)]
    exact Bool.false_ne_true)]

theorem string_nil_append (s : String) : "" ++ s = s := by
  obtain ⟨l⟩ := s
  rfl

theorem string_append_nil (s : String) : s ++ "" = s := by
  obtain ⟨l⟩ := s
  exact congrArg String.mk (List.append_nil l)

theorem foldl_append_init (Y : List String) :
    ∀ init : String, Y.foldl (fun r s => r ++ s) init =
      init ++ Y.foldl (fun r s => r ++ s) "" := by
  induction Y with
  | nil => intro init; exact (string_append_nil init).symm
  | cons a as ih =>
    intro init
    show as.foldl _ (init ++ a) = init ++ as.foldl _ ("" ++ a)
    rw [ih (init ++ a), ih ("" ++ a), string_nil_append, string_append_assoc]

theorem string_join_append (X Y : List String) :
    String.join (X ++ Y) = String.join X ++ String.join Y := by
  show (X ++ Y).foldl (fun r s => r ++ s) "" = _
  rw [List.foldl_append]
  exact foldl_append_init _ _

theorem map_append_join (A B : List String) (nl : String) :
    String.join ((A ++ B).map (fun l => l ++ nl)) =
      String.join (A.map (fun l => l ++ nl)) ++
        String.join (B.map (fun l => l ++ nl)) := by
  rw [List.map_append, string_join_append]

/-- C4: `write` terminates every written line — each header line and each
vector line — with the `newline` option: `"\n"` when the option is unset
(the current variant's default) and `"\r\n"` after the legacy constructor
has run. -/
theorem write_line_terminators (o : Options) (header : List String)
    (vectors : List (List ℚ)) (rows : List String)
    (h : vectors.enum.mapM (fun p => vector_to_string (p.1 : ℤ) p.2 6) =
      Except.ok rows) :
    (o.newline = none →
      write o header vectors =
        .ok (String.join ((header ++ rows).map (fun l => l ++ "\n")))) ∧
    write (legacyInit o) header vectors =
      .ok (String.join ((header ++ rows).map (fun l => l ++ "\r\n"))) := by
  constructor
  · intro hnl
    unfold write
    rw [h, hnl, map_append_join]
    rfl
  · unfold write
    rw [h, map_append_join]
    rfl

/-- Witness for C4 at a concrete call with no vector rows. -/
theorem write_line_terminators_witness :
    write {} ["a"] [] =
      .ok (String.join ((["a"] ++ ([] : List String)).map (fun l => l ++ "\n"))) :=
  (write_line_terminators {} ["a"] [] [] rfl).1 rfl

/-- C5 counterexample: with default options the current variant's file line
holds doubled backslashes (the raw-string source), not the single
backslashes the claim states. -/
theorem file_line_not_single_backslash :
    (construct_header {} "Wed Jan 15 14:32:07 2025" (some "MyVectorSet.dvs")
        3 [0, 1000])[1]? =
      some "# File: C:\\\\Medcom\\\\MriCustomer\\\\seq\\\\DiffusionVectorSets\\\\MyVectorSet.dvs" ∧
    ("# File: C:\\\\Medcom\\\\MriCustomer\\\\seq\\\\DiffusionVectorSets\\\\MyVectorSet.dvs" : String) ≠
      "# File: C:\\Medcom\\MriCustomer\\seq\\DiffusionVectorSets\\MyVectorSet.dvs" :=
  ⟨by decide, by decide⟩

/-- C5 (amended): the file-path header line is
`# File: <directory><name>` where the directory is the `default_path`
option when set and otherwise the raw-string default, whose separators are
doubled backslashes; the legacy constructor overrides `default_path` with
`C:\\Medcom\\MriCustomer\\seq\\` (one level up, also doubled). -/
theorem header_file_line_directory (o : Options) (t : String)
    (f : Option String) (n : ℤ) (bvs : List ℤ) :
    (construct_header o t f n bvs)[1]? =
      some ("# File: " ++ o.default_path.getD defaultPathCurrent ++
        filenameOrDefault f) ∧
    defaultPathCurrent =
      "C:\\\\Medcom\\\\MriCustomer\\\\seq\\\\DiffusionVectorSets\\\\" ∧
    (legacyInit o).default_path = some defaultPathLegacy ∧
    defaultPathLegacy = "C:\\\\Medcom\\\\MriCustomer\\\\seq\\\\" :=
  ⟨rfl, rfl, rfl, rfl⟩

/-- C6 counterexample: an empty (but present) output name is NOT replaced
by the default name — the file line ends in the bare directory and does not
mention `MyVectorSet.dvs`. -/
theorem empty_filename_no_fallback :
    (construct_header {} "Wed Jan 15 14:32:07 2025" (some "") 3 [0, 1000])[1]? =
      some "# File: C:\\\\Medcom\\\\MriCustomer\\\\seq\\\\DiffusionVectorSets\\\\" ∧
    ¬ ("MyVectorSet.dvs".data <:+:
        ("# File: C:\\\\Medcom\\\\MriCustomer\\\\seq\\\\DiffusionVectorSets\\\\" : String).data) :=
  ⟨by decide, by decide⟩

/-- C6 (amended): only an absent (`None`) filename falls back to the
default name `MyVectorSet.dvs`; any present name — the empty string
included — is used as-is after basename extraction. -/
theorem filename_fallback_only_when_none (o : Options) (t : String)
    (n : ℤ) (bvs : List ℤ) :
    (construct_header o t none n bvs)[1]? =
      some ("# File: " ++ o.default_path.getD defaultPathCurrent ++
        "MyVectorSet.dvs") ∧
    ∀ fn : String, (construct_header o t (some fn) n bvs)[1]? =
      some ("# File: " ++ o.default_path.getD defaultPathCurrent ++
        pathName fn) :=
  ⟨rfl, fun _ => rfl⟩

/-- C7 counterexample: with an empty b-value list `construct_header` does
not fail — it returns a header that contains the marker
`[directions=0]`. -/
theorem construct_header_empty_bvalues_marker :
    "[directions=0]" ∈
      construct_header {} "Wed Jan 15 14:32:07 2025" none 3 [] := by decide

/-- C7 (amended): `construct_header` performs no validation: for an empty
b-value list or non-positive `n_dims` it still returns a header containing
the `[directions=<len(bValues) * nDims>]` marker (`[directions=0]` when the
b-values are empty) instead of raising any error. -/
theorem construct_header_no_validation (o : Options) (t : String)
    (f : Option String) (n : ℤ) (bvs : List ℤ)
    (h : bvs = [] ∨ n ≤ 0) :
    ("[directions=" ++ intStr ((bvs.length : ℤ) * n) ++ "]") ∈
      construct_header o t f n bvs := by
  unfold construct_header
  simp

/-- Witness for C7 at the concrete input of an empty b-value list. -/
theorem construct_header_no_validation_witness :
    ("[directions=" ++ intStr ((([] : List ℤ).length : ℤ) * 3) ++ "]") ∈
      construct_header {} "Wed Jan 15 14:32:07 2025" none 3 [] :=
  construct_header_no_validation {} "Wed Jan 15 14:32:07 2025" none 3 []
    (Or.inl rfl)

end FreeDiffusionToolkit
